import Mathlib

/-!
Verification development for the Sector AI Agent SDK core:
the resilient request queue, the conversation thread builder,
the scheduling loops and the agent supervisor, as shallow
Lean embeddings of the TypeScript sources.
-/

namespace SectorSDK

/-! ### RequestQueue (class RequestQueue)

The queue holds closures pushed by `add`.  A queued task is modelled by the
behaviour of its underlying `request` thunk: it throws on its first
`failsBefore` attempts and then returns normally.  -/

/-- One queued unit of work, identified by a name, whose underlying
`request()` thunk throws on its first `failsBefore` attempts. -/
structure QTask where
  name : String
  failsBefore : Nat
deriving DecidableEq, Repr

/-- A queue entry together with the number of attempts already made on it. -/
structure QEntry where
  task : QTask
  attempts : Nat
deriving DecidableEq, Repr

/-- Observable events of the processing loop: the caller promise being
resolved or rejected, the backoff sleep (with its duration in ms), and the
random inter-task pacing delay. -/
inductive QueueEvent where
  | resolved (name : String)
  | rejected (name : String)
  | backoff (ms : Nat)
  | paced
deriving DecidableEq, Repr

/-- Whether awaiting the queued closure throws into `processQueue`. -/
inductive RunResult where
  | ok
  | threw
deriving DecidableEq, Repr

/-- The underlying `request()` thunk throws exactly on attempts
numbered below `failsBefore`. -/
def requestThrows (t : QTask) (attempt : Nat) : Bool :=
  attempt < t.failsBefore

/-- The closure pushed by `add`:
`async () =&gt; \x7b try \x7b resolve(await request()) \x7d catch (e) \x7b reject(e) \x7d \x7d`.
Both branches return normally — `reject` only settles the caller promise and
the closure itself never rethrows — so the result is `.ok` in both cases. -/
def wrappedRun (t : QTask) (attempt : Nat) : QueueEvent × RunResult :=
  if requestThrows t attempt then
    (.rejected t.name, .ok)
  else
    (.resolved t.name, .ok)

/-- A hypothetical raw runnable that lets the failure propagate out of the
awaited closure, which is what `processQueue`'s catch branch is written for. -/
def rawRun (t : QTask) (attempt : Nat) : QueueEvent × RunResult :=
  if requestThrows t attempt then
    (.rejected t.name, .threw)
  else
    (.resolved t.name, .ok)

/-- `exponentialBackoff(retryCount)`: delay of `2 ^ retryCount * 1000` ms. -/
def exponentialBackoff (retryCount : Nat) : Nat :=
  2 ^ retryCount * 1000

/-- The body of `processQueue`'s while loop, fuelled because the source loop
need not terminate when a queued closure keeps throwing.  Each iteration
shifts the head entry and awaits it (behaviour given by `run`); if awaiting
throws, the same entry is unshifted back to the head and the loop sleeps
`exponentialBackoff(queue.length)` — the length measured after the unshift —
and in all cases the loop then awaits the random pacing delay. -/
def processQueue (run : QTask → Nat → QueueEvent × RunResult) :
    Nat → List QEntry → List QueueEvent
  | 0, _ => []
  | _, [] => []
  | fuel + 1, e :: rest =>
    match run e.task e.attempts with
    | (ev, .ok) => ev :: .paced :: processQueue run fuel rest
    | (ev, .threw) =>
      let requeued : List QEntry := { e with attempts := e.attempts + 1 } :: rest
      ev :: .backoff (exponentialBackoff requeued.length) :: .paced ::
        processQueue run fuel requeued

/-! ### RequestQueue as a cooperative-interleaving state machine

To reason about single-flight we model the whole object — the pending
closure list, the `processing` flag, and every `processQueue` invocation
that entered the while loop — as a state machine whose atomic transitions
are the code segments between two awaits of the single-threaded runtime. -/

/-- The phase of one `processQueue` invocation that entered the while loop:
it is either awaiting the shifted task's closure or awaiting `randomDelay`. -/
inductive LoopPhase where
  | awaiting (t : String)
  | pausing
deriving DecidableEq, Repr

/-- The state of one RequestQueue instance: the pending closures, the
`processing` flag, and the active while-loop instances. -/
structure QueueState where
  queue : List String
  processing : Bool
  loops : List LoopPhase
deriving DecidableEq, Repr

/-- Atomic transitions: `add t` is a caller running `add` up to the first
await (push, synchronous `processQueue()` call, guard check, and — when the
guard passes — the first shift and await); `complete i` is loop instance `i`'s
awaited closure settling, after which the loop awaits `randomDelay`;
`delayDone i` is that delay elapsing and the loop re-checking the while
condition. -/
inductive QueueAction where
  | add (t : String)
  | complete (i : Nat)
  | delayDone (i : Nat)
deriving DecidableEq, Repr

/-- The transition function of the queue state machine. -/
def queueStep (s : QueueState) : QueueAction → QueueState
  | .add t =>
    let q := s.queue ++ [t]
    if s.processing then
      { s with queue := q }
    else
      match q with
      | [] => { s with queue := q }
      | h :: rest =>
        { queue := rest, processing := true, loops := s.loops ++ [.awaiting h] }
  | .complete i =>
    match s.loops[i]? with
    | some (.awaiting _) => { s with loops := s.loops.set i .pausing }
    | _ => s
  | .delayDone i =>
    match s.loops[i]? with
    | some .pausing =>
      match s.queue with
      | [] => { s with processing := false, loops := s.loops.eraseIdx i }
      | h :: rest => { s with queue := rest, loops := s.loops.set i (.awaiting h) }
    | _ => s

/-- A fresh RequestQueue: empty pending list, not processing, no loop. -/
def initQueueState : QueueState :=
  { queue := [], processing := false, loops := [] }

/-- Run a sequence of atomic transitions from the fresh queue. -/
def queueRun (acts : List QueueAction) : QueueState :=
  acts.foldl queueStep initQueueState

/-- How many tasks are in the executing state (their closure being awaited
by some while-loop instance) at a given instant. -/
def executingCount (s : QueueState) : Nat :=
  s.loops.countP fun p =>
    match p with
    | .awaiting _ => true
    | .pausing => false

/-! ### Conversation thread builder (buildConversationThread, utils.ts)

The node-fetch collaborator `client.getTweet` is a function from the opaque
parent reference to an optional node; a fetch that throws or finds nothing is
`none` (the source catches the error and ends the chain there). -/

/-- The fields of a tweet used by `buildConversationThread` and its memory
step.  The parent reference is the source's `in_reply_to_user_id` field,
kept opaque. -/
structure TweetData where
  id : String
  in_reply_to_user_id : Option String
  conversation_id : String
  author_id : String
  text : String
deriving DecidableEq, Repr

/-- Modelled from the spec: `stringToUuid` comes from the external core
library; the spec describes the memory key as "a stable derived identifier
combining node id and agent id", so it is modelled as a deterministic
function of its seed string. -/
def stringToUuid (s : String) : String :=
  s

/-- The durable memory entry created for a tweet. -/
structure MemoryRecord where
  memId : String
  agentId : String
  text : String
  inReplyTo : Option String
deriving DecidableEq, Repr

/-- Modelled from the spec: the message manager is "a durable key-value
store" external to this repository; it is modelled as an association list
from memory id to record. -/
abbrev MemoryStore : Type :=
  List (String × MemoryRecord)

/-- Modelled from the spec: `getMemoryById` is a key-value `get`. -/
def getMemoryById (store : MemoryStore) (k : String) : Option MemoryRecord :=
  (List.find? (fun e => e.1 == k) store).map (fun e => e.2)

/-- Modelled from the spec: `createMemory` is a key-value insert. -/
def createMemory (store : MemoryStore) (k : String) (r : MemoryRecord) :
    MemoryStore :=
  store ++ [(k, r)]

/-- The stable memory key for one tweet and one agent:
`stringToUuid(tweet.id + "-" + agentId)`. -/
def memoryKey (agentId : String) (t : TweetData) : String :=
  stringToUuid (t.id ++ "-" ++ agentId)

/-- The memory record `createMemory` receives for one tweet and one agent. -/
def memoryRecordOf (agentId : String) (t : TweetData) : MemoryRecord :=
  { memId := memoryKey agentId t
    agentId := agentId
    text := t.text
    inReplyTo := t.in_reply_to_user_id.map
      (fun p => stringToUuid (p ++ "-" ++ agentId)) }

/-- The memory-write step of `processThread`: look the node's memory up by
its derived key and create it only when absent. -/
def persistIfAbsent (agentId : String) (store : MemoryStore) (t : TweetData) :
    MemoryStore :=
  match getMemoryById store (memoryKey agentId t) with
  | some _ => store
  | none => createMemory store (memoryKey agentId t) (memoryRecordOf agentId t)

/-- The mutable state captured by `buildConversationThread`'s closure:
the output `thread`, the `visited` id set, and the durable store. -/
structure ThreadState where
  thread : List TweetData
  visited : List String
  store : MemoryStore
deriving DecidableEq, Repr

/-- One recursion step's memory handling, touching only the store. -/
def memoryStep (agentId : String) (s : ThreadState) (t : TweetData) :
    ThreadState :=
  { s with store := persistIfAbsent agentId s.store t }

/-- The recursive `processThread(currentTweet, depth)` closure.  The fuel is
`maxReplies - depth`: the source stops when `depth >= maxReplies`, which is
exactly fuel zero, and recurses on the fetched parent at `depth + 1`, which
is fuel minus one.  Order of the source body: depth check, memory handling,
visited check, mark visited and unshift onto the thread, then fetch the
parent reference and recurse (a failed or empty fetch ends the chain). -/
def processThread (getTweet : String → Option TweetData) (agentId : String) :
    Nat → TweetData → ThreadState → ThreadState
  | 0, _, s => s
  | fuel + 1, t, s =>
    let s1 := memoryStep agentId s t
    if t.id ∈ s1.visited then
      s1
    else
      let s2 := { s1 with
        visited := t.id :: s1.visited
        thread := t :: s1.thread }
      match t.in_reply_to_user_id with
      | some parentRef =>
        match getTweet parentRef with
        | some parent => processThread getTweet agentId fuel parent s2
        | none => s2
      | none => s2

/-- `buildConversationThread(tweet, client, maxReplies)`: run `processThread`
from depth 0 on an empty thread and empty visited set, over a given initial
durable store. -/
def buildConversationThread (getTweet : String → Option TweetData)
    (agentId : String) (tweet : TweetData) (maxReplies : Nat)
    (store : MemoryStore) : ThreadState :=
  processThread getTweet agentId maxReplies tweet
    { thread := [], visited := [], store := store }

/-! ### Scheduling loops (post.ts, interactions.ts, TwitterSearchClient)

Each loop iteration is embedded as the ordered list of its operations, in
the order the single-threaded runtime executes them.  `invokeWorkNoAwait`
starts the work without awaiting it, so the work is still in flight at every
later operation of the list; `awaitWork` completes before the next
operation runs; `armTimer` is the `setTimeout` that schedules the next
iteration. -/

/-- Primitive operations of one scheduling-loop iteration. -/
inductive LoopOp where
  | invokeWorkNoAwait
  | awaitWork
  | drawInterval
  | armTimer
deriving DecidableEq, Repr

/-- `TwitterSearchClient.engageWithSearchTermsLoop`, one invocation:
`this.engageWithSearchTerms().then();` fires the work without awaiting,
then the random interval is drawn and `setTimeout` arms the next
invocation immediately. -/
def engageWithSearchTermsLoop : List LoopOp :=
  [.invokeWorkNoAwait, .drawInterval, .armTimer]

/-- `generateNewTweetLoop` in `TwitterPostClient.start`, one invocation:
read the cached last-post timestamp, draw the random interval, await
`generateNewTweet()` when the interval has elapsed (`shouldPost`), and only
then arm the timer for the next iteration. -/
def generateNewTweetLoop (shouldPost : Bool) : List LoopOp :=
  [.drawInterval] ++ (if shouldPost then [.awaitWork] else []) ++ [.armTimer]

/-- `handleTwitterInteractionsLoop` in `TwitterInteractionClient.start`, one
cycle from a timer firing to the next timer being armed: the callback awaits
`handleTwitterInteractions()` and then re-invokes the loop, which draws the
interval and arms the next timer. -/
def handleTwitterInteractionsLoop : List LoopOp :=
  [.awaitWork, .drawInterval, .armTimer]

/-- An iteration arms a timer while its work is still in flight when an
un-awaited work invocation is followed, later in the same iteration, by
`armTimer`. -/
def armsTimerWithWorkInFlight : List LoopOp → Bool
  | [] => false
  | .invokeWorkNoAwait :: rest =>
    rest.contains .armTimer || armsTimerWithWorkInFlight rest
  | _ :: rest => armsTimerWithWorkInFlight rest

/-! ### Agent supervisor (src/server.ts)

The process registry `agents` is an association map from pid to status;
gRPC results are `Except` of a structured error.  `startAgent` is given the
pid the OS assigns to the spawned child. -/

/-- The gRPC status codes used by the supervisor handlers. -/
inductive GrpcCode where
  | invalidArgument
  | notFound
  | internal
deriving DecidableEq, Repr

/-- A structured gRPC error: message, code and name. -/
structure GrpcError where
  message : String
  code : GrpcCode
  name : String
deriving DecidableEq, Repr

/-- The twitter credentials of a StartAgent request; a field holding the
empty string is falsy in the source's validation. -/
structure TwitterCreds where
  username : String
  token : String
  secret : String
deriving DecidableEq, Repr

/-- A StartAgent request: the persona (`character`) and the credentials
object, which may be absent altogether. -/
structure StartAgentRequest where
  character : String
  twitter : Option TwitterCreds
deriving DecidableEq, Repr

/-- The process registry: pid to status, the map `agents` in the source. -/
abbrev AgentRegistry : Type :=
  List (String × String)

/-- Registry lookup, `agents[pid]`. -/
def regLookup (reg : AgentRegistry) (pid : String) : Option String :=
  (List.find? (fun e => e.1 == pid) reg).map (fun e => e.2)

/-- Registry update, `agents[pid] = ...` or `agents[pid].status = ...`:
the JS object keeps one binding per key. -/
def regSet (reg : AgentRegistry) (pid status : String) : AgentRegistry :=
  (pid, status) :: List.filter (fun e => !(e.1 == pid)) reg

/-- The validation guard of `startAgent`:
`!character || !twitter || !twitter.username || !twitter.token || !twitter.secret`. -/
def startAgentMissingParams (req : StartAgentRequest) : Bool :=
  req.character == "" ||
    match req.twitter with
    | none => true
    | some tw => tw.username == "" || tw.token == "" || tw.secret == ""

/-- The outcome of a `startAgent` call: the gRPC response, the registry
afterwards, and whether a worker process was spawned. -/
structure StartResult where
  response : Except GrpcError String
  registry : AgentRegistry
  spawned : Bool
deriving Repr

/-- `startAgent`: validate, else spawn the worker, register it as running
keyed by its pid, and answer with the pid. -/
def startAgent (reg : AgentRegistry) (req : StartAgentRequest)
    (freshPid : String) : StartResult :=
  if startAgentMissingParams req then
    { response := .error
        { message := "Missing required parameters."
          code := .invalidArgument
          name := "MissingRequiredParametersError" }
      registry := reg
      spawned := false }
  else
    { response := .ok freshPid
      registry := regSet reg freshPid "running"
      spawned := true }

/-- The child's exit handler registered by `startAgent`: when the pid is
still in the registry, its status becomes stopped. -/
def onChildExit (reg : AgentRegistry) (pid : String) : AgentRegistry :=
  match regLookup reg pid with
  | some _ => regSet reg pid "stopped"
  | none => reg

/-- `stopAgent`: on a known pid, kill the process, mark it stopped and
answer success; otherwise answer NotFound. -/
def stopAgent (reg : AgentRegistry) (pid : String) :
    Except GrpcError Bool × AgentRegistry :=
  match regLookup reg pid with
  | some _ => (.ok true, regSet reg pid "stopped")
  | none =>
    (.error
      { message := "Agent not found"
        code := .notFound
        name := "AgentNotFoundError" }, reg)

/-- `getAgentStatus`: a pure read of the registry. -/
def getAgentStatus (reg : AgentRegistry) (pid : String) :
    Except GrpcError (String × String) :=
  match regLookup reg pid with
  | some st => .ok (pid, st)
  | none =>
    .error
      { message := "Agent not found"
        code := .notFound
        name := "AgentNotFoundError" }

/-! ### Concrete instances used by witnesses -/

/-- Root node of the concrete chain: no parent reference. -/
def chainTweetA : TweetData :=
  { id := "A", in_reply_to_user_id := none, conversation_id := "conv"
    author_id := "ua", text := "root post" }

/-- Second node: its parent reference resolves to `chainTweetA`. -/
def chainTweetB : TweetData :=
  { id := "B", in_reply_to_user_id := some "refA", conversation_id := "conv"
    author_id := "ub", text := "reply b" }

/-- Third node: its parent reference resolves to `chainTweetB`. -/
def chainTweetC : TweetData :=
  { id := "C", in_reply_to_user_id := some "refB", conversation_id := "conv"
    author_id := "uc", text := "reply c" }

/-- Leaf node under analysis: its parent reference resolves to `chainTweetC`. -/
def chainTweetD : TweetData :=
  { id := "D", in_reply_to_user_id := some "refC", conversation_id := "conv"
    author_id := "ud", text := "reply d" }

/-- The node-fetch collaborator backing the concrete chain D → C → B → A. -/
def chainFetch : String → Option TweetData := fun r =>
  if r = "refA" then some chainTweetA
  else if r = "refB" then some chainTweetB
  else if r = "refC" then some chainTweetC
  else none

/-! ### Helper lemmas -/

/-- Closures pushed by `add` swallow their failure inside the try/catch, so
the processing loop's catch branch — and with it the backoff sleep — is
unreachable: no `backoff` event ever appears in a trace over `wrappedRun`. -/
theorem processQueue_wrapped_no_backoff :
    ∀ (fuel : Nat) (es : List QEntry) (ms : Nat),
      QueueEvent.backoff ms ∉ processQueue wrappedRun fuel es := by
  intro fuel
  induction fuel with
  | zero => intro es ms; simp [processQueue]
  | succ n ih =>
    intro es ms
    cases es with
    | nil => simp [processQueue]
    | cons e rest =>
      by_cases h : requestThrows e.task e.attempts <;>
        simp [processQueue, wrappedRun, h, ih rest ms]

/-- C1. Queue ordering under failure, as the code actually behaves: with
tasks A, B, C enqueued through `add` in that order, where B's underlying
request throws on its first two attempts, the observed trace is
A resolved, B rejected once (terminal, delivered to the caller), C resolved —
B is never retried, because the closure `add` pushes never rethrows, so the
head-of-queue retry and its backoff never run on the `add` path. -/
theorem requestQueue_add_path_never_retries :
    ∀ (a b c : String),
      processQueue wrappedRun 10
          [⟨⟨a, 0⟩, 0⟩, ⟨⟨b, 2⟩, 0⟩, ⟨⟨c, 0⟩, 0⟩] =
        [.resolved a, .paced, .rejected b, .paced, .resolved c, .paced] ∧
      ∀ (fuel : Nat) (es : List QEntry) (ms : Nat),
        QueueEvent.backoff ms ∉ processQueue wrappedRun fuel es := by
  intro a b c
  exact ⟨rfl, processQueue_wrapped_no_backoff⟩

/-- C2. Backoff delay, as the code actually computes it: a lone task whose
request throws on its first two attempts (retry counts 0 and 1 at the two
failures) is, in the loop's own failure branch, slept for
`exponentialBackoff(queue.length)` = `2 ^ 1 * 1000` ms both times — the
argument is the queue length after the unshift, not the task's retry count,
so the first sleep is 2000 ms where `2 ^ retryCount * 1000` would give
1000 ms; and on the actual `add` path the backoff never runs at all. -/
theorem requestQueue_backoff_uses_queue_length :
    ∀ (b : String),
      processQueue rawRun 10 [⟨⟨b, 2⟩, 0⟩] =
        [.rejected b, .backoff (exponentialBackoff 1), .paced,
         .rejected b, .backoff (exponentialBackoff 1), .paced,
         .resolved b, .paced] ∧
      exponentialBackoff 1 = 2000 ∧
      exponentialBackoff 0 = 1000 ∧
      ∀ (fuel : Nat) (es : List QEntry) (ms : Nat),
        QueueEvent.backoff ms ∉ processQueue wrappedRun fuel es := by
  intro b
  exact ⟨rfl, rfl, rfl, processQueue_wrapped_no_backoff⟩

/-- C5 counterexample. The search-and-engage loop arms its next timer while
its work is still in flight: `engageWithSearchTerms().then()` starts the
work without awaiting it and `setTimeout` is called immediately afterwards,
refuting the claim that every loop instantiation schedules the next
invocation only after the previous one completes. -/
theorem engageLoop_armsTimerWithWorkInFlight :
    armsTimerWithWorkInFlight engageWithSearchTermsLoop = true := by
  decide

/-- C5 amended. The content-posting loop and the interaction-scanning loop
arm the next timer only after their awaited work completes, but the
search-and-engage loop starts its work un-awaited and arms the timer
immediately, so a slow search iteration can overlap the next one. -/
theorem schedulingLoops_rearm_discipline :
    (∀ shouldPost,
        armsTimerWithWorkInFlight (generateNewTweetLoop shouldPost) = false) ∧
    armsTimerWithWorkInFlight handleTwitterInteractionsLoop = false ∧
    armsTimerWithWorkInFlight engageWithSearchTermsLoop = true := by
  refine ⟨fun b => ?_, rfl, rfl⟩
  cases b <;> rfl

/-- The inductive invariant of the queue state machine: exactly one
while-loop instance is active while `processing` is set and none otherwise,
and the pending list is empty whenever `processing` is clear. -/
def QueueInv (s : QueueState) : Prop :=
  s.loops.length = (if s.processing then 1 else 0) ∧
    (s.processing = false → s.queue = [])

theorem queueInv_init : QueueInv initQueueState := by
  constructor <;> simp [initQueueState]

theorem queueInv_step (s : QueueState) (a : QueueAction) (h : QueueInv s) :
    QueueInv (queueStep s a) := by
  obtain ⟨hlen, hq⟩ := h
  cases a with
  | add t =>
    by_cases hp : s.processing
    · simp only [queueStep, hp, if_true]
      exact ⟨by simpa [hp] using hlen, by simp [hp]⟩
    · have hq0 : s.queue = [] := hq (by simpa using hp)
      have hl0 : s.loops = [] := by
        have : s.loops.length = 0 := by simpa [hp] using hlen
        exact List.length_eq_zero.mp this
      simp [queueStep, hp, hq0, hl0, QueueInv]
  | complete i =>
    simp only [queueStep]
    cases hfind : s.loops[i]? with
    | none => exact ⟨hlen, hq⟩
    | some ph =>
      cases ph with
      | awaiting t => exact ⟨by simpa using hlen, hq⟩
      | pausing => exact ⟨hlen, hq⟩
  | delayDone i =>
    simp only [queueStep]
    cases hfind : s.loops[i]? with
    | none => exact ⟨hlen, hq⟩
    | some ph =>
      cases ph with
      | awaiting t => exact ⟨hlen, hq⟩
      | pausing =>
        have hi : i < s.loops.length := by
          rcases Nat.lt_or_ge i s.loops.length with hlt | hge
          · exact hlt
          · rw [List.getElem?_eq_none hge] at hfind
            exact Option.noConfusion hfind
        have hp : s.processing = true := by
          by_contra hcon
          simp only [Bool.not_eq_true] at hcon
          rw [hcon, if_neg (by simp)] at hlen
          omega
        cases hqs : s.queue with
        | nil =>
          refine ⟨?_, fun _ => rfl⟩
          have herase : (s.loops.eraseIdx i).length = s.loops.length - 1 :=
            List.length_eraseIdx_of_lt hi
          rw [hp] at hlen
          simp only [if_true] at hlen
          simp [herase, hlen]
        | cons h rest =>
          refine ⟨?_, by simp [hp]⟩
          simpa using hlen

theorem queueInv_run (acts : List QueueAction) : QueueInv (queueRun acts) := by
  suffices h : ∀ s, QueueInv s → QueueInv (acts.foldl queueStep s) from
    h initQueueState queueInv_init
  induction acts with
  | nil => exact fun s hs => hs
  | cons a rest ih =>
    intro s hs
    exact ih (queueStep s a) (queueInv_step s a hs)

/-- C6. Single-flight: after any interleaving of callers invoking `add` and
of completion and delay events, at most one task of the queue instance is in
the executing state — the `processing` guard runs atomically with the push
in the single-threaded runtime, so a second while loop never starts while
one is active. -/
theorem requestQueue_single_flight :
    ∀ (acts : List QueueAction), executingCount (queueRun acts) ≤ 1 := by
  intro acts
  obtain ⟨hlen, -⟩ := queueInv_run acts
  calc executingCount (queueRun acts)
      ≤ (queueRun acts).loops.length := List.countP_le_length _
    _ ≤ 1 := by rw [hlen]; split <;> omega

/-- The memory step never changes the thread being accumulated. -/
theorem memoryStep_thread (agentId : String) (s : ThreadState) (t : TweetData) :
    (memoryStep agentId s t).thread = s.thread :=
  rfl

/-- The memory step never changes the visited id set. -/
theorem memoryStep_visited (agentId : String) (s : ThreadState) (t : TweetData) :
    (memoryStep agentId s t).visited = s.visited :=
  rfl

/-- Unfolding lemma: a recursion step on an unvisited node with a parent
reference that fetches successfully prepends the node and recurses. -/
theorem processThread_step_found (getTweet : String → Option TweetData)
    (agentId : String) (fuel : Nat) (t : TweetData) (s : ThreadState)
    (pr : String) (p : TweetData)
    (hvis : t.id ∉ s.visited) (hpr : t.in_reply_to_user_id = some pr)
    (hp : getTweet pr = some p) :
    processThread getTweet agentId (fuel + 1) t s =
      processThread getTweet agentId fuel p
        { thread := t :: s.thread
          visited := t.id :: s.visited
          store := persistIfAbsent agentId s.store t } := by
  simp only [processThread, memoryStep_visited, memoryStep, if_neg hvis, hpr, hp]

/-- Unfolding lemma: a recursion step on an unvisited node without a parent
reference prepends the node and ends the chain. -/
theorem processThread_step_root (getTweet : String → Option TweetData)
    (agentId : String) (fuel : Nat) (t : TweetData) (s : ThreadState)
    (hvis : t.id ∉ s.visited) (hpr : t.in_reply_to_user_id = none) :
    processThread getTweet agentId (fuel + 1) t s =
      { thread := t :: s.thread
        visited := t.id :: s.visited
        store := persistIfAbsent agentId s.store t } := by
  simp only [processThread, memoryStep_visited, memoryStep, if_neg hvis, hpr]

/-- Unfolding lemma: a recursion step on an already visited node only runs
the memory handling and stops (the cycle guard). -/
theorem processThread_step_visited (getTweet : String → Option TweetData)
    (agentId : String) (fuel : Nat) (t : TweetData) (s : ThreadState)
    (hvis : t.id ∈ s.visited) :
    processThread getTweet agentId (fuel + 1) t s =
      { s with store := persistIfAbsent agentId s.store t } := by
  simp only [processThread, memoryStep_visited, memoryStep, if_pos hvis]

/-- Unfolding lemma: a recursion step on an unvisited node whose parent
fetch fails or finds nothing prepends the node and ends the chain. -/
theorem processThread_step_fetch_fail (getTweet : String → Option TweetData)
    (agentId : String) (fuel : Nat) (t : TweetData) (s : ThreadState)
    (pr : String)
    (hvis : t.id ∉ s.visited) (hpr : t.in_reply_to_user_id = some pr)
    (hp : getTweet pr = none) :
    processThread getTweet agentId (fuel + 1) t s =
      { thread := t :: s.thread
        visited := t.id :: s.visited
        store := persistIfAbsent agentId s.store t } := by
  simp only [processThread, memoryStep_visited, memoryStep, if_neg hvis, hpr, hp]

/-- The thread-building recursion preserves the invariant that the thread's
ids are distinct and all recorded as visited. -/
theorem processThread_nodup_invariant (getTweet : String → Option TweetData)
    (agentId : String) :
    ∀ (fuel : Nat) (t : TweetData) (s : ThreadState),
      (s.thread.map (fun x => x.id)).Nodup →
      (∀ x ∈ s.thread, x.id ∈ s.visited) →
      ((processThread getTweet agentId fuel t s).thread.map
          (fun x => x.id)).Nodup ∧
        ∀ x ∈ (processThread getTweet agentId fuel t s).thread,
          x.id ∈ (processThread getTweet agentId fuel t s).visited := by
  intro fuel
  induction fuel with
  | zero => intro t s h1 h2; exact ⟨h1, h2⟩
  | succ n ih =>
    intro t s h1 h2
    by_cases hvis : t.id ∈ s.visited
    · rw [processThread_step_visited getTweet agentId n t s hvis]
      exact ⟨h1, h2⟩
    · have h1' : ((t :: s.thread).map (fun x => x.id)).Nodup := by
        simp only [List.map_cons, List.nodup_cons]
        refine ⟨fun hmem => hvis ?_, h1⟩
        obtain ⟨x, hx, hxid⟩ := List.mem_map.mp hmem
        exact hxid ▸ h2 x hx
      have h2' : ∀ x ∈ t :: s.thread, x.id ∈ t.id :: s.visited := by
        intro x hx
        rcases List.mem_cons.mp hx with hx | hx
        · exact hx ▸ List.mem_cons_self _ _
        · exact List.mem_cons_of_mem _ (h2 x hx)
      cases hpr : t.in_reply_to_user_id with
      | none =>
        rw [processThread_step_root getTweet agentId n t s hvis hpr]
        exact ⟨h1', h2'⟩
      | some pr =>
        cases hp : getTweet pr with
        | none =>
          rw [processThread_step_fetch_fail getTweet agentId n t s pr hvis hpr hp]
          exact ⟨h1', h2'⟩
        | some p =>
          rw [processThread_step_found getTweet agentId n t s pr p hvis hpr hp]
          exact ih p _ h1' h2'

/-- The thread-building recursion adds at most `fuel` nodes. -/
theorem processThread_length_le (getTweet : String → Option TweetData)
    (agentId : String) :
    ∀ (fuel : Nat) (t : TweetData) (s : ThreadState),
      (processThread getTweet agentId fuel t s).thread.length ≤
        s.thread.length + fuel := by
  intro fuel
  induction fuel with
  | zero => intro t s; simp [processThread]
  | succ n ih =>
    intro t s
    by_cases hvis : t.id ∈ s.visited
    · rw [processThread_step_visited getTweet agentId n t s hvis]
      simp
    · cases hpr : t.in_reply_to_user_id with
      | none =>
        rw [processThread_step_root getTweet agentId n t s hvis hpr]
        simp only [List.length_cons]
        omega
      | some pr =>
        cases hp : getTweet pr with
        | none =>
          rw [processThread_step_fetch_fail getTweet agentId n t s pr hvis hpr hp]
          simp only [List.length_cons]
          omega
        | some p =>
          rw [processThread_step_found getTweet agentId n t s pr p hvis hpr hp]
          have := ih p
            { thread := t :: s.thread
              visited := t.id :: s.visited
              store := persistIfAbsent agentId s.store t }
          simp only [List.length_cons] at this
          omega

/-- C3. Thread acyclicity: for every node-fetch graph — in particular one
whose parent references form a cycle — `buildConversationThread` is a total
function (it terminates for every input) and the returned thread carries no
duplicate node id: the visited set is checked before a node is prepended. -/
theorem buildThread_no_duplicate_ids :
    ∀ (getTweet : String → Option TweetData) (agentId : String)
      (t : TweetData) (maxReplies : Nat) (store : MemoryStore),
      ((buildConversationThread getTweet agentId t maxReplies store).thread.map
        (fun x => x.id)).Nodup := by
  intro getTweet agentId t maxReplies store
  exact (processThread_nodup_invariant getTweet agentId maxReplies t
    { thread := [], visited := [], store := store } (by simp) (by simp)).1

/-- C10. Depth bound: the thread returned by
`buildConversationThread(leaf, n)` holds at most `n` nodes — the check
`depth >= maxReplies` runs before the node at that depth is added, so with
`maxReplies = 0` even the leaf under analysis is excluded and the thread is
empty. -/
theorem buildThread_length_bound :
    ∀ (getTweet : String → Option TweetData) (agentId : String)
      (leaf : TweetData) (n : Nat) (store : MemoryStore),
      (buildConversationThread getTweet agentId leaf n store).thread.length ≤ n ∧
      (buildConversationThread getTweet agentId leaf 0 store).thread = [] := by
  intro getTweet agentId leaf n store
  constructor
  · have h := processThread_length_le getTweet agentId n leaf
      { thread := [], visited := [], store := store }
    simpa using h
  · rfl

/-- C4. Thread ordering: for every acyclic chain D → C → B → A reachable
through the node-fetch collaborator (each parent reference resolving to the
next node, A having none, all ids distinct),
`buildConversationThread(D, maxReplies = 10)` returns exactly
`[A, B, C, D]` — root first, the node under analysis last. -/
theorem buildThread_chain_root_first (getTweet : String → Option TweetData)
    (agentId : String) (store : MemoryStore) (a b c d : TweetData)
    (ra rb rc : String)
    (hda : a.in_reply_to_user_id = none)
    (hb : b.in_reply_to_user_id = some ra) (hfa : getTweet ra = some a)
    (hc : c.in_reply_to_user_id = some rb) (hfb : getTweet rb = some b)
    (hd : d.in_reply_to_user_id = some rc) (hfc : getTweet rc = some c)
    (hcd : c.id ≠ d.id) (hbc : b.id ≠ c.id) (hbd : b.id ≠ d.id)
    (hab : a.id ≠ b.id) (hac : a.id ≠ c.id) (had : a.id ≠ d.id) :
    (buildConversationThread getTweet agentId d 10 store).thread =
      [a, b, c, d] := by
  have e1 : processThread getTweet agentId 10 d
      { thread := [], visited := [], store := store } =
      processThread getTweet agentId 9 c
        { thread := [d], visited := [d.id]
          store := persistIfAbsent agentId store d } :=
    processThread_step_found getTweet agentId 9 d
      { thread := [], visited := [], store := store } rc c (by simp) hd hfc
  have e2 : processThread getTweet agentId 9 c
      { thread := [d], visited := [d.id]
        store := persistIfAbsent agentId store d } =
      processThread getTweet agentId 8 b
        { thread := [c, d], visited := [c.id, d.id]
          store := persistIfAbsent agentId (persistIfAbsent agentId store d) c } :=
    processThread_step_found getTweet agentId 8 c
      { thread := [d], visited := [d.id]
        store := persistIfAbsent agentId store d } rb b (by simp [hcd]) hc hfb
  have e3 : processThread getTweet agentId 8 b
      { thread := [c, d], visited := [c.id, d.id]
        store := persistIfAbsent agentId (persistIfAbsent agentId store d) c } =
      processThread getTweet agentId 7 a
        { thread := [b, c, d], visited := [b.id, c.id, d.id]
          store := persistIfAbsent agentId
            (persistIfAbsent agentId (persistIfAbsent agentId store d) c) b } :=
    processThread_step_found getTweet agentId 7 b
      { thread := [c, d], visited := [c.id, d.id]
        store := persistIfAbsent agentId (persistIfAbsent agentId store d) c }
      ra a (by simp [hbc, hbd]) hb hfa
  have e4 : processThread getTweet agentId 7 a
      { thread := [b, c, d], visited := [b.id, c.id, d.id]
        store := persistIfAbsent agentId
          (persistIfAbsent agentId (persistIfAbsent agentId store d) c) b } =
      { thread := [a, b, c, d], visited := [a.id, b.id, c.id, d.id]
        store := persistIfAbsent agentId
          (persistIfAbsent agentId
            (persistIfAbsent agentId (persistIfAbsent agentId store d) c) b) a } :=
    processThread_step_root getTweet agentId 6 a
      { thread := [b, c, d], visited := [b.id, c.id, d.id]
        store := persistIfAbsent agentId
          (persistIfAbsent agentId (persistIfAbsent agentId store d) c) b }
      (by simp [hab, hac, had]) hda
  show (processThread getTweet agentId 10 d
    { thread := [], visited := [], store := store }).thread = [a, b, c, d]
  rw [e1, e2, e3, e4]

/-- C4 witness: on the concrete chain `chainTweetD → chainTweetC →
chainTweetB → chainTweetA` served by `chainFetch`, the built thread is
root-first. -/
theorem buildThread_chain_root_first_witness :
    (buildConversationThread chainFetch "agent" chainTweetD 10 []).thread =
      [chainTweetA, chainTweetB, chainTweetC, chainTweetD] :=
  buildThread_chain_root_first chainFetch "agent" []
    chainTweetA chainTweetB chainTweetC chainTweetD "refA" "refB" "refC"
    rfl rfl (by decide) rfl (by decide) rfl (by decide)
    (by decide) (by decide) (by decide) (by decide) (by decide) (by decide)

/-- When the derived key is already present the persist step is a no-op. -/
theorem persistIfAbsent_found {agentId : String} {t : TweetData}
    {store : MemoryStore} {r : MemoryRecord}
    (h : getMemoryById store (memoryKey agentId t) = some r) :
    persistIfAbsent agentId store t = store := by
  simp [persistIfAbsent, h]

/-- When the derived key is absent the persist step appends the record. -/
theorem persistIfAbsent_absent {agentId : String} {t : TweetData}
    {store : MemoryStore}
    (h : getMemoryById store (memoryKey agentId t) = none) :
    persistIfAbsent agentId store t =
      createMemory store (memoryKey agentId t) (memoryRecordOf agentId t) := by
  simp [persistIfAbsent, h]

/-- A record just created under a fresh key is found by a lookup on it. -/
theorem getMemoryById_createMemory_self (store : MemoryStore) (k : String)
    (r : MemoryRecord)
    (h : List.find? (fun e => e.1 == k) store = none) :
    getMemoryById (createMemory store k r) k = some r := by
  simp [getMemoryById, createMemory, List.find?_append, h]

/-- C9. Idempotent memory writes: persisting the same node twice through the
thread builder's memory step leaves the store as a single write would — the
step checks `getMemoryById` on the key derived from node id and agent id and
creates the record only when absent — and starting from a store without that
key, two persists leave exactly one entry under it. -/
theorem memoryWrite_idempotent :
    ∀ (agentId : String) (t : TweetData) (store : MemoryStore),
      persistIfAbsent agentId (persistIfAbsent agentId store t) t =
        persistIfAbsent agentId store t ∧
      (store.countP (fun e => e.1 == memoryKey agentId t) = 0 →
        (persistIfAbsent agentId (persistIfAbsent agentId store t) t).countP
            (fun e => e.1 == memoryKey agentId t) = 1) := by
  intro agentId t store
  cases h : getMemoryById store (memoryKey agentId t) with
  | some r =>
    constructor
    · rw [persistIfAbsent_found h]
      exact persistIfAbsent_found h
    · intro hcount
      exfalso
      obtain ⟨e, hfind, -⟩ := Option.map_eq_some'.mp h
      have hmem := List.mem_of_find?_eq_some hfind
      have hpe := List.find?_some hfind
      exact (List.countP_eq_zero.mp hcount) e hmem hpe
  | none =>
    have hfindnone :
        List.find? (fun e => e.1 == memoryKey agentId t) store = none := by
      simpa [getMemoryById, Option.map_eq_none'] using h
    have habs := persistIfAbsent_absent h
    have hsec : getMemoryById (persistIfAbsent agentId store t)
        (memoryKey agentId t) = some (memoryRecordOf agentId t) := by
      rw [habs]
      exact getMemoryById_createMemory_self store (memoryKey agentId t)
        (memoryRecordOf agentId t) hfindnone
    constructor
    · exact persistIfAbsent_found hsec
    · intro hcount
      rw [persistIfAbsent_found hsec, habs]
      unfold createMemory
      rw [List.countP_append, hcount]
      simp [List.countP_cons]

/-- C9 witness: writing `chainTweetA` twice into an empty store leaves
exactly one entry under its derived key. -/
theorem memoryWrite_idempotent_witness :
    ([] : MemoryStore).countP
        (fun e => e.1 == memoryKey "agent" chainTweetA) = 0 ∧
      (persistIfAbsent "agent" (persistIfAbsent "agent" [] chainTweetA)
          chainTweetA).countP
        (fun e => e.1 == memoryKey "agent" chainTweetA) = 1 :=
  ⟨rfl, (memoryWrite_idempotent "agent" chainTweetA []).2 rfl⟩

/-- Looking up a pid right after setting it finds the new status. -/
theorem regLookup_regSet_self (reg : AgentRegistry) (pid v : String) :
    regLookup (regSet reg pid v) pid = some v := by
  simp [regLookup, regSet]

/-- C7. Supervisor lifecycle: a valid StartAgent answers with the spawned
pid and registers it as running; GetAgentStatus right after answers
`running`; after the process-exit notification a later GetAgentStatus
answers `stopped`; and StopAgent on a pid absent from the registry answers
NotFound. -/
theorem supervisor_lifecycle (reg : AgentRegistry)
    (ch un tok sec pid q : String)
    (hch : ch ≠ "") (hun : un ≠ "") (htok : tok ≠ "") (hsec : sec ≠ "")
    (hq : regLookup (startAgent reg ⟨ch, some ⟨un, tok, sec⟩⟩ pid).registry
      q = none) :
    (startAgent reg ⟨ch, some ⟨un, tok, sec⟩⟩ pid).response = .ok pid ∧
    getAgentStatus (startAgent reg ⟨ch, some ⟨un, tok, sec⟩⟩ pid).registry
      pid = .ok (pid, "running") ∧
    getAgentStatus
      (onChildExit (startAgent reg ⟨ch, some ⟨un, tok, sec⟩⟩ pid).registry pid)
      pid = .ok (pid, "stopped") ∧
    (stopAgent (startAgent reg ⟨ch, some ⟨un, tok, sec⟩⟩ pid).registry q).1 =
      .error ⟨"Agent not found", .notFound, "AgentNotFoundError"⟩ := by
  have hvalid : startAgentMissingParams ⟨ch, some ⟨un, tok, sec⟩⟩ = false := by
    simp [startAgentMissingParams, hch, hun, htok, hsec]
  have hreg : (startAgent reg ⟨ch, some ⟨un, tok, sec⟩⟩ pid).registry =
      regSet reg pid "running" := by
    simp [startAgent, hvalid]
  rw [hreg] at hq
  refine ⟨by simp [startAgent, hvalid], ?_, ?_, ?_⟩
  · rw [hreg]
    simp [getAgentStatus, regLookup_regSet_self]
  · rw [hreg]
    simp [onChildExit, regLookup_regSet_self, getAgentStatus]
  · rw [hreg]
    simp [stopAgent, hq]

/-- C7 witness: the lifecycle sequence on a fresh registry with concrete
persona, credentials, pid and an unknown pid. -/
theorem supervisor_lifecycle_witness :
    (startAgent [] ⟨"persona", some ⟨"user", "tok", "sec"⟩⟩ "123").response =
      .ok "123" ∧
    getAgentStatus
      (startAgent [] ⟨"persona", some ⟨"user", "tok", "sec"⟩⟩ "123").registry
      "123" = .ok ("123", "running") ∧
    getAgentStatus
      (onChildExit
        (startAgent [] ⟨"persona", some ⟨"user", "tok", "sec"⟩⟩ "123").registry
        "123") "123" = .ok ("123", "stopped") ∧
    (stopAgent
      (startAgent [] ⟨"persona", some ⟨"user", "tok", "sec"⟩⟩ "123").registry
      "unknown").1 =
      .error ⟨"Agent not found", .notFound, "AgentNotFoundError"⟩ :=
  supervisor_lifecycle [] "persona" "user" "tok" "sec" "123" "unknown"
    (by decide) (by decide) (by decide) (by decide) (by decide)

/-- C8. StartAgent validation: when the persona is absent, the credentials
object is absent, or any of its username, token or secret is absent — in
particular a credentials object missing its token — the call answers
InvalidArgument, spawns no worker process and leaves the registry
untouched. -/
theorem startAgent_validation (reg : AgentRegistry) (req : StartAgentRequest)
    (pid : String)
    (h : req.character = "" ∨ req.twitter = none ∨
      ∃ tw, req.twitter = some tw ∧
        (tw.username = "" ∨ tw.token = "" ∨ tw.secret = "")) :
    (startAgent reg req pid).response =
      .error ⟨"Missing required parameters.", .invalidArgument,
        "MissingRequiredParametersError"⟩ ∧
    (startAgent reg req pid).spawned = false ∧
    (startAgent reg req pid).registry = reg := by
  have hguard : startAgentMissingParams req = true := by
    rcases h with h | h | ⟨tw, htw, h⟩
    · simp [startAgentMissingParams, h]
    · simp [startAgentMissingParams, h]
    · rcases h with h | h | h <;> simp [startAgentMissingParams, htw, h]
  simp [startAgent, hguard]

/-- C8 witness: a request whose credentials object misses its token fails
with InvalidArgument, spawns nothing and leaves the registry empty. -/
theorem startAgent_validation_witness :
    (startAgent [] ⟨"persona", some ⟨"user", "", "sec"⟩⟩ "1").response =
      .error ⟨"Missing required parameters.", .invalidArgument,
        "MissingRequiredParametersError"⟩ ∧
    (startAgent [] ⟨"persona", some ⟨"user", "", "sec"⟩⟩ "1").spawned = false ∧
    (startAgent [] ⟨"persona", some ⟨"user", "", "sec"⟩⟩ "1").registry = [] :=
  startAgent_validation [] ⟨"persona", some ⟨"user", "", "sec"⟩⟩ "1"
    (Or.inr (Or.inr ⟨⟨"user", "", "sec"⟩, rfl, Or.inr (Or.inl rfl)⟩))

end SectorSDK
